import Mathlib

/-!
Shallow embedding of `analyze_prices.py` (election-data repository).

The script is a linear pipeline: fetch two daily price series (VIX, SPY),
compute closing prices at month offsets around fixed election dates,
assemble a table with per-cell NaN fallback, derive percentage-change
columns, and write outputs.  Network fetching and chart rendering are
external effects; the pipeline from the two fetched series onward is
embedded here as pure functions.

Dates are modelled as (year, month, day) triples with the calendar-month
addition (day-of-month clamping) semantics of `pd.DateOffset(months=m)`.
Prices are exact rationals; cell values are an IEEE-style extension
(`PVal`) with NaN and signed infinities, matching numpy float semantics
for the subtraction/division/multiplication used by the script.
-/

namespace ElectionData

/-- A calendar date, as used by `pd.Timestamp` in the script
(year, month 1..12, day 1..31). -/
structure Date where
  year : Int
  month : Int
  day : Int
deriving DecidableEq, Repr

/-- Gregorian leap-year rule, as used by pandas calendar arithmetic. -/
def isLeapYear (y : Int) : Bool :=
  (y % 4 == 0 && y % 100 != 0) || (y % 400 == 0)

/-- Number of days in a month of a given year. -/
def daysInMonth (y m : Int) : Int :=
  if m = 2 then (if isLeapYear y then 29 else 28)
  else if m = 4 ∨ m = 6 ∨ m = 9 ∨ m = 11 then 30
  else 31

/-- Calendar-month addition with day-of-month clamping: the semantics of
`date + pd.DateOffset(months=m)` in `get_relative_dates`. -/
def Date.addMonths (d : Date) (m : Int) : Date :=
  let t : Int := d.year * 12 + (d.month - 1) + m
  let y : Int := t.ediv 12
  let mo : Int := t.emod 12 + 1
  ⟨y, mo, min d.day (daysInMonth y mo)⟩

/-- Injective numeric key for valid dates; comparing keys is the
chronological order used by `data.index <= target_date`. -/
def Date.key (d : Date) : Int := d.year * 10000 + d.month * 100 + d.day

/-- A fetched price series: the (DatetimeIndex date, Close price) pairs of
the DataFrame, in index order. -/
abbrev Series := List (Date × ℚ)

/-- Message raised by `get_closest_trading_day` when the lookup is
unsatisfiable (the Python ValueError). -/
def noTradingDayMsg : String := "No trading days found on or before target"

/-- Embedding of `get_closest_trading_day`: filter the index to dates on or
before the target and take the last element; raise ValueError if the
filtered index is empty. -/
def get_closest_trading_day (target_date : Date) (data : Series) :
    Except String Date :=
  let available_dates := data.filter (fun p => decide (p.1.key ≤ target_date.key))
  match available_dates.getLast? with
  | none => .error noTradingDayMsg
  | some p => .ok p.1

/-- The module-level ELECTION_DATES table of the script. -/
def ELECTION_DATES : List (Int × Date) :=
  [(2000, ⟨2000, 11, 7⟩), (2004, ⟨2004, 11, 2⟩), (2008, ⟨2008, 11, 4⟩),
   (2012, ⟨2012, 11, 6⟩), (2016, ⟨2016, 11, 8⟩), (2020, ⟨2020, 11, 3⟩)]

/-- The module-level RELATIVE_PERIODS table of the script. -/
def RELATIVE_PERIODS : List (String × Int) :=
  [("2_months_before", -2), ("1_month_before", -1),
   ("1_month_after", 1), ("2_months_after", 2)]

/-- Embedding of `get_relative_dates`: one target date per offset label,
reading the module-level RELATIVE_PERIODS (as the source does). -/
def get_relative_dates (election_date : Date) : List (String × Date) :=
  RELATIVE_PERIODS.map (fun pm => (pm.1, election_date.addMonths pm.2))

/-- A cell value of the Result Table: either a closing price, NaN (the
script's "no value" marker, `np.nan`), or a signed infinity as produced by
numpy float division. -/
inductive PVal where
  | nan : PVal
  | posinf : PVal
  | neginf : PVal
  | num : ℚ → PVal
deriving DecidableEq, Repr

/-- numpy float subtraction on cell values (NaN-propagating). -/
def PVal.sub : PVal → PVal → PVal
  | .nan, _ => .nan
  | .posinf, .nan => .nan
  | .posinf, .posinf => .nan
  | .posinf, .neginf => .posinf
  | .posinf, .num _ => .posinf
  | .neginf, .nan => .nan
  | .neginf, .posinf => .neginf
  | .neginf, .neginf => .nan
  | .neginf, .num _ => .neginf
  | .num _, .nan => .nan
  | .num _, .posinf => .neginf
  | .num _, .neginf => .posinf
  | .num a, .num b => .num (a - b)

/-- numpy float division on cell values: NaN propagates, finite/0 gives a
signed infinity (or NaN for 0/0), finite/infinite gives 0. -/
def PVal.div : PVal → PVal → PVal
  | .nan, _ => .nan
  | .posinf, .nan => .nan
  | .posinf, .posinf => .nan
  | .posinf, .neginf => .nan
  | .posinf, .num b => if b < 0 then .neginf else .posinf
  | .neginf, .nan => .nan
  | .neginf, .posinf => .nan
  | .neginf, .neginf => .nan
  | .neginf, .num b => if b < 0 then .posinf else .neginf
  | .num _, .nan => .nan
  | .num _, .posinf => .num 0
  | .num _, .neginf => .num 0
  | .num a, .num b =>
      if b = 0 then (if a = 0 then .nan else if 0 < a then .posinf else .neginf)
      else .num (a / b)

/-- numpy float multiplication on cell values. -/
def PVal.mul : PVal → PVal → PVal
  | .nan, _ => .nan
  | .posinf, .nan => .nan
  | .posinf, .posinf => .posinf
  | .posinf, .neginf => .neginf
  | .posinf, .num b => if b = 0 then .nan else if 0 < b then .posinf else .neginf
  | .neginf, .nan => .nan
  | .neginf, .posinf => .neginf
  | .neginf, .neginf => .posinf
  | .neginf, .num b => if b = 0 then .nan else if 0 < b then .neginf else .posinf
  | .num _, .nan => .nan
  | .num a, .posinf => if a = 0 then .nan else if 0 < a then .posinf else .neginf
  | .num a, .neginf => if a = 0 then .nan else if 0 < a then .neginf else .posinf
  | .num a, .num b => .num (a * b)

/-- True for the non-finite cell values (NaN and the signed infinities):
the "undefined / not-a-number" results of the change computation. -/
def PVal.isIndeterminate : PVal → Bool
  | .num _ => false
  | _ => true

/-- `data.loc[day, 'Close']`: price at an exact index date, `none` when the
date is absent from the index (the Python KeyError). -/
def lookupClose (day : Date) (data : Series) : Option ℚ :=
  (data.find? (fun p => decide (p.1 = day))).map (·.2)

/-- One (offset, instrument) cell of `calculate_price_movements`: resolve
the trading day and read the close, with both the resolver's ValueError and
a missing-price KeyError caught and replaced by NaN. -/
def computeCell (rel_date : Date) (data : Series) : PVal :=
  match get_closest_trading_day rel_date data with
  | .error _ => .nan
  | .ok day =>
      match lookupClose day data with
      | none => .nan
      | some q => .num q

/-- A Movement Record: the per-year dict of `calculate_price_movements`,
column name to cell value, in insertion order. -/
abbrev Row := List (String × PVal)

/-- The Result Table: one (Year, record) pair per election year, in
ELECTION_DATES order (the DataFrame with its Year column). -/
abbrev Table := List (Int × Row)

/-- The inner loop of `calculate_price_movements` for one election year:
for each relative period, the VIX cell then the SPY cell. -/
def processYear (election_date : Date) (vix_data spy_data : Series) : Row :=
  ((get_relative_dates election_date).map (fun pr =>
    [("VIX_" ++ pr.1, computeCell pr.2 vix_data),
     ("SPY_" ++ pr.1, computeCell pr.2 spy_data)])).flatten

/-- Embedding of `calculate_price_movements`.  The source's `periods`
parameter is accepted but unused: `get_relative_dates` reads the
module-level RELATIVE_PERIODS, exactly as the Python does. -/
def calculate_price_movements (election_dates : List (Int × Date))
    (_periods : List (String × Int)) (vix_data spy_data : Series) : Table :=
  election_dates.map (fun yd => (yd.1, processYear yd.2 vix_data spy_data))

/-- Column read on a record: first entry with the given name
(`df[name]` restricted to one row); `none` is the Python KeyError. -/
def getCol (row : Row) (c : String) : Option PVal :=
  (row.find? (fun p => decide (p.1 = c))).map (·.2)

/-- Column assignment on a record (`df[name] = value` for one row):
overwrite every entry with that name if present, else append. -/
def setCol (row : Row) (c : String) (v : PVal) : Row :=
  if row.any (fun p => decide (p.1 = c)) then
    row.map (fun p => if p.1 = c then (c, v) else p)
  else row ++ [(c, v)]

/-- The percentage-change expression of `calculate_percentage_changes`:
`((after - before) / before) * 100` in numpy float semantics. -/
def pctFormula (a b : PVal) : PVal :=
  ((a.sub b).div b).mul (.num 100)

/-- `calculate_percentage_changes` restricted to one record: read the four
1-month columns (KeyError when absent), assign the VIX change column, then
the SPY change column, in source order. -/
def addChanges (row : Row) : Option Row :=
  match getCol row "VIX_1_month_after", getCol row "VIX_1_month_before" with
  | some va, some vb =>
      let row1 := setCol row "VIX_1m_change (%)" (pctFormula va vb)
      match getCol row1 "SPY_1_month_after", getCol row1 "SPY_1_month_before" with
      | some sa, some sb => some (setCol row1 "SPY_1m_change (%)" (pctFormula sa sb))
      | _, _ => none
  | _, _ => none

/-- Embedding of `calculate_percentage_changes` over the whole table;
`none` models an uncaught KeyError (a required column absent). -/
def calculate_percentage_changes : Table → Option Table
  | [] => some []
  | (y, r) :: rest =>
      match addChanges r, calculate_percentage_changes rest with
      | some r', some rest' => some ((y, r') :: rest')
      | _, _ => none

/-- Observable outcome of one run of `main`, as a function of the two
fetched series.  `halted` is the early return on an empty fetch (no output
file written); `crashed` is an uncaught exception after the first CSV;
`completed` carries the two CSV tables (charts are rendered between the
two writes and carry no data beyond the first table). -/
inductive RunResult where
  | halted : RunResult
  | crashed : Table → RunResult
  | completed : Table → Table → RunResult
deriving DecidableEq, Repr

/-- Embedding of `main` from the fetch results onward: the dataset-level
empty check, then movement calculation, first CSV, charts, change
calculation, second CSV. -/
def main_pipeline (vix_data spy_data : Series) : RunResult :=
  if vix_data.isEmpty || spy_data.isEmpty then .halted
  else
    let df := calculate_price_movements ELECTION_DATES RELATIVE_PERIODS vix_data spy_data
    match calculate_percentage_changes df with
    | none => .crashed df
    | some df2 => .completed df df2

/-- The four 1-month columns read by `calculate_percentage_changes` are
all present in a record. -/
def fourColsPresent (row : Row) : Prop :=
  (getCol row "VIX_1_month_after").isSome = true ∧
  (getCol row "VIX_1_month_before").isSome = true ∧
  (getCol row "SPY_1_month_after").isSome = true ∧
  (getCol row "SPY_1_month_before").isSome = true

instance (row : Row) : Decidable (fourColsPresent row) := by
  unfold fourColsPresent
  infer_instance

/-- The eight (instrument, offset) column names of the Result Table, in
the insertion order produced by `calculate_price_movements`. -/
def priceColumns : List String :=
  ["VIX_2_months_before", "SPY_2_months_before",
   "VIX_1_month_before", "SPY_1_month_before",
   "VIX_1_month_after", "SPY_1_month_after",
   "VIX_2_months_after", "SPY_2_months_after"]

/-- A concrete one-row table with finite 1-month values (test fixture). -/
def sampleRow : Row :=
  [("VIX_1_month_after", .num 110), ("VIX_1_month_before", .num 100),
   ("SPY_1_month_after", .num 110), ("SPY_1_month_before", .num 100)]

/-- One-row table around `sampleRow` (test fixture). -/
def sampleTable : Table := [(2000, sampleRow)]

/-- A concrete row whose VIX "before" value is NaN and whose SPY "before"
value is zero (test fixture). -/
def sampleRowBad : Row :=
  [("VIX_1_month_after", .num 110), ("VIX_1_month_before", .nan),
   ("SPY_1_month_after", .num 110), ("SPY_1_month_before", .num 0)]

/-- One-row table around `sampleRowBad` (test fixture). -/
def sampleTableBad : Table := [(2000, sampleRowBad)]

/-- A one-day price series dated after every election window
(test fixture). -/
def sampleLateSeries : Series := [(⟨2022, 1, 3⟩, 30)]

/-- The last element of a list, when it exists, is a member. -/
theorem mem_of_getLast?_eq {α : Type _} :
    ∀ {l : List α} {a : α}, l.getLast? = some a → a ∈ l
  | [], _, h => by simp at h
  | [x], a, h => by
      simp only [List.getLast?_singleton, Option.some.injEq] at h
      simp [h]
  | x :: y :: l, a, h => by
      rw [List.getLast?_cons_cons] at h
      exact List.mem_cons_of_mem _ (mem_of_getLast?_eq h)

/-- In a `Pairwise R` list, every member is the last element or `R`-below it. -/
theorem getLast?_pairwise_max {α : Type _} {R : α → α → Prop} :
    ∀ {l : List α} {a : α}, l.Pairwise R → l.getLast? = some a →
      ∀ b ∈ l, b = a ∨ R b a
  | [], _, _, h, _ => by simp at h
  | [x], a, _, h, b => by
      simp only [List.getLast?_singleton, Option.some.injEq] at h
      intro hb
      simp only [List.mem_singleton] at hb
      exact Or.inl (hb.trans h)
  | x :: y :: l, a, hp, h, b => by
      rw [List.getLast?_cons_cons] at h
      intro hb
      rcases List.mem_cons.mp hb with hbx | hbtl
      · subst hbx
        exact Or.inr ((List.pairwise_cons.mp hp).1 a (mem_of_getLast?_eq h))
      · exact getLast?_pairwise_max (List.pairwise_cons.mp hp).2 h b hbtl

/-- CLAIM C1.  The Trading-Day Resolver succeeds iff some series timestamp
is on or before the target date; on success the returned date is a series
timestamp on or before the target and is the maximum such timestamp; when
no timestamp qualifies it fails with the lookup-unsatisfiable ValueError.
(In particular, for a series with dates D1 < D2 < D3 and a target strictly
between D1 and D2, the maximality clauses force the result D1.) -/
theorem C1_get_closest_trading_day_correct (target : Date) (data : Series)
    (hs : data.Pairwise (fun p q => p.1.key < q.1.key)) :
    ((∃ p ∈ data, p.1.key ≤ target.key) ↔
        ∃ d, get_closest_trading_day target data = .ok d) ∧
    (∀ d, get_closest_trading_day target data = .ok d →
        (∃ q, (d, q) ∈ data) ∧ d.key ≤ target.key ∧
        ∀ p ∈ data, p.1.key ≤ target.key → p.1.key ≤ d.key) ∧
    ((¬ ∃ p ∈ data, p.1.key ≤ target.key) →
        get_closest_trading_day target data = .error noTradingDayMsg) := by
  simp only [get_closest_trading_day]
  cases hL : (data.filter (fun p => decide (p.1.key ≤ target.key))).getLast?
  case none =>
    have hnil : data.filter (fun p => decide (p.1.key ≤ target.key)) = [] :=
      List.getLast?_eq_none_iff.mp hL
    have hno : ∀ p ∈ data, ¬ p.1.key ≤ target.key := by
      intro p hp
      have := List.filter_eq_nil_iff.mp hnil p hp
      simpa using this
    refine ⟨?_, ?_, ?_⟩
    · constructor
      · rintro ⟨p, hp, hle⟩
        exact absurd hle (hno p hp)
      · rintro ⟨d, hd⟩
        simp at hd
    · intro d hd
      simp at hd
    · intro _
      rfl
  case some a =>
    have hmem := mem_of_getLast?_eq hL
    have hsplit := List.mem_filter.mp hmem
    have hle : a.1.key ≤ target.key := by simpa using hsplit.2
    have hmax : ∀ p ∈ data, p.1.key ≤ target.key → p.1.key ≤ a.1.key := by
      intro p hp hple
      have hpf : p ∈ data.filter (fun p => decide (p.1.key ≤ target.key)) :=
        List.mem_filter.mpr ⟨hp, by simpa using hple⟩
      rcases getLast?_pairwise_max (hs.filter _) hL p hpf with heq | hlt
      · rw [heq]
      · exact le_of_lt hlt
    refine ⟨?_, ?_, ?_⟩
    · constructor
      · intro _
        exact ⟨a.1, rfl⟩
      · intro _
        exact ⟨a, hsplit.1, hle⟩
    · intro d hd
      simp only [Except.ok.injEq] at hd
      subst hd
      exact ⟨⟨a.2, hsplit.1⟩, hle, hmax⟩
    · intro hno
      exact absurd ⟨a, hsplit.1, hle⟩ hno

/-- Witness for C1 on a concrete sorted three-day series with a target
strictly between the first two dates. -/
theorem C1_witness :
    ∃ d, get_closest_trading_day ⟨2000, 6, 15⟩
      [(⟨2000, 3, 1⟩, (10 : ℚ)), (⟨2000, 9, 1⟩, 11), (⟨2000, 12, 1⟩, 12)] =
      .ok d := by
  have h := C1_get_closest_trading_day_correct ⟨2000, 6, 15⟩
    [(⟨2000, 3, 1⟩, (10 : ℚ)), (⟨2000, 9, 1⟩, 11), (⟨2000, 12, 1⟩, 12)]
    (by decide)
  exact h.1.mp ⟨(⟨2000, 3, 1⟩, (10 : ℚ)), by decide, by decide⟩

/-- Replacing every entry named `c` makes the first `c`-lookup find the new
value, provided some entry named `c` exists. -/
theorem find?_replace_self (r : Row) (c : String) (v : PVal)
    (h : r.any (fun p => decide (p.1 = c)) = true) :
    (r.map (fun p => if p.1 = c then (c, v) else p)).find?
      (fun p => decide (p.1 = c)) = some (c, v) := by
  induction r with
  | nil => simp at h
  | cons p r ih =>
    by_cases hp : p.1 = c
    · rw [List.map_cons, if_pos hp, List.find?_cons]
      simp
    · have h' : r.any (fun p => decide (p.1 = c)) = true := by
        simpa [List.any_cons, hp] using h
      rw [List.map_cons, if_neg hp, List.find?_cons]
      simpa [hp] using ih h'

/-- Replacing entries named `c` does not change lookups of a different
name. -/
theorem find?_replace_other (r : Row) (c c' : String) (v : PVal)
    (h : c' ≠ c) :
    (r.map (fun p => if p.1 = c then (c, v) else p)).find?
      (fun p => decide (p.1 = c')) = r.find? (fun p => decide (p.1 = c')) := by
  have hne : ¬ (c = c') := fun hcc => h hcc.symm
  induction r with
  | nil => rfl
  | cons p r ih =>
    by_cases hp : p.1 = c
    · rw [List.map_cons, if_pos hp, List.find?_cons, List.find?_cons]
      have hp' : ¬ (p.1 = c') := by rw [hp]; exact hne
      simp [hne, hp', ih]
    · rw [List.map_cons, if_neg hp, List.find?_cons, List.find?_cons]
      by_cases hp' : p.1 = c'
      · simp [hp']
      · simp [hp', ih]

/-- `df[c] = v` then reading column `c` gives `v`. -/
theorem getCol_setCol_self (r : Row) (c : String) (v : PVal) :
    getCol (setCol r c v) c = some v := by
  unfold setCol
  by_cases h : r.any (fun p => decide (p.1 = c)) = true
  · rw [if_pos h]
    unfold getCol
    rw [find?_replace_self r c v h]
    rfl
  · have hfalse : r.any (fun p => decide (p.1 = c)) = false :=
      Bool.eq_false_iff.mpr h
    have hrnone : r.find? (fun p => decide (p.1 = c)) = none := by
      refine List.find?_eq_none.mpr ?_
      intro x hx
      exact List.any_eq_false.mp hfalse x hx
    rw [if_neg h]
    unfold getCol
    rw [List.find?_append, hrnone, Option.none_or]
    simp [List.find?_cons]

/-- `df[c] = v` does not change any other column `c'`. -/
theorem getCol_setCol_other (r : Row) (c c' : String) (v : PVal)
    (h : c' ≠ c) :
    getCol (setCol r c v) c' = getCol r c' := by
  have hne : ¬ (c = c') := fun hcc => h hcc.symm
  unfold setCol
  by_cases hany : r.any (fun p => decide (p.1 = c)) = true
  · rw [if_pos hany]
    unfold getCol
    rw [find?_replace_other r c c' v h]
  · rw [if_neg hany]
    unfold getCol
    rw [List.find?_append]
    have htail : List.find? (fun p => decide (p.1 = c')) [(c, v)] = none := by
      simp [List.find?_cons, hne]
    rw [htail, Option.or_none]

theorem pctFormula_num (a b : ℚ) (hb : ¬ b = 0) :
    pctFormula (.num a) (.num b) = .num ((a - b) / b * 100) := by
  simp [pctFormula, PVal.sub, PVal.div, PVal.mul, hb]

theorem pctFormula_indet_nan (a : PVal) :
    (pctFormula a .nan).isIndeterminate = true := by
  cases a <;> simp [pctFormula, PVal.sub, PVal.div, PVal.mul, PVal.isIndeterminate]

theorem pctFormula_indet_zero (a : PVal) :
    (pctFormula a (.num 0)).isIndeterminate = true := by
  cases a with
  | nan => simp [pctFormula, PVal.sub, PVal.div, PVal.mul, PVal.isIndeterminate]
  | posinf => simp [pctFormula, PVal.sub, PVal.div, PVal.mul, PVal.isIndeterminate]
  | neginf => simp [pctFormula, PVal.sub, PVal.div, PVal.mul, PVal.isIndeterminate]
  | num q =>
      by_cases hq : q = 0
      · simp [pctFormula, PVal.sub, PVal.div, PVal.mul, PVal.isIndeterminate, hq]
      · by_cases hq' : 0 < q
        · simp [pctFormula, PVal.sub, PVal.div, PVal.mul, PVal.isIndeterminate, hq, hq']
        · simp [pctFormula, PVal.sub, PVal.div, PVal.mul, PVal.isIndeterminate, hq, hq']

theorem addChanges_eq (row : Row) (va vb sa sb : PVal)
    (hva : getCol row "VIX_1_month_after" = some va)
    (hvb : getCol row "VIX_1_month_before" = some vb)
    (hsa : getCol row "SPY_1_month_after" = some sa)
    (hsb : getCol row "SPY_1_month_before" = some sb) :
    addChanges row =
      some (setCol (setCol row "VIX_1m_change (%)" (pctFormula va vb))
        "SPY_1m_change (%)" (pctFormula sa sb)) := by
  have h1 : getCol (setCol row "VIX_1m_change (%)" (pctFormula va vb))
      "SPY_1_month_after" = some sa := by
    rw [getCol_setCol_other _ _ _ _ (by decide)]
    exact hsa
  have h2 : getCol (setCol row "VIX_1m_change (%)" (pctFormula va vb))
      "SPY_1_month_before" = some sb := by
    rw [getCol_setCol_other _ _ _ _ (by decide)]
    exact hsb
  unfold addChanges
  rw [hva, hvb]
  simp only [h1, h2]

theorem cpc_pairing :
    ∀ (t t' : Table), calculate_percentage_changes t = some t' →
      t'.length = t.length ∧
      ∀ (i : Nat) (y : Int) (r : Row), t[i]? = some (y, r) →
        ∃ r', t'[i]? = some (y, r') ∧ addChanges r = some r'
  | [], t', h => by
      simp only [calculate_percentage_changes, Option.some.injEq] at h
      subst h
      refine ⟨rfl, ?_⟩
      intro i y r hir
      simp at hir
  | (y, r) :: rest, t', h => by
      unfold calculate_percentage_changes at h
      cases hAC : addChanges r with
      | none => rw [hAC] at h; simp at h
      | some r' =>
        rw [hAC] at h
        cases hRest : calculate_percentage_changes rest with
        | none => rw [hRest] at h; simp at h
        | some rest' =>
          rw [hRest] at h
          simp only [Option.some.injEq] at h
          subst h
          obtain ⟨hlen, hidx⟩ := cpc_pairing rest rest' hRest
          refine ⟨by simp [hlen], ?_⟩
          intro i y0 r0 hir
          cases i with
          | zero =>
            simp only [List.getElem?_cons_zero, Option.some.injEq, Prod.mk.injEq] at hir
            refine ⟨r', ?_, ?_⟩
            · simp [← hir.1]
            · rw [← hir.2]; exact hAC
          | succ n =>
            simp only [List.getElem?_cons_succ] at hir ⊢
            exact hidx n y0 r0 hir

theorem cpc_total :
    ∀ (t : Table), (∀ p ∈ t, fourColsPresent p.2) →
      ∃ t', calculate_percentage_changes t = some t'
  | [], _ => ⟨[], rfl⟩
  | (y, r) :: rest, h => by
      obtain ⟨hva, hvb, hsa, hsb⟩ := h (y, r) (by simp)
      obtain ⟨va, hva⟩ := Option.isSome_iff_exists.mp hva
      obtain ⟨vb, hvb⟩ := Option.isSome_iff_exists.mp hvb
      obtain ⟨sa, hsa⟩ := Option.isSome_iff_exists.mp hsa
      obtain ⟨sb, hsb⟩ := Option.isSome_iff_exists.mp hsb
      obtain ⟨rest', hrest⟩ := cpc_total rest (fun p hp => h p (List.mem_cons_of_mem _ hp))
      refine ⟨(y, setCol (setCol r "VIX_1m_change (%)" (pctFormula va vb))
        "SPY_1m_change (%)" (pctFormula sa sb)) :: rest', ?_⟩
      unfold calculate_percentage_changes
      rw [addChanges_eq r va vb sa sb hva hvb hsa hsb, hrest]


/-- Any element produced by an index lookup is a member. -/
theorem mem_of_getElem?_eq {α : Type _} {l : List α} {i : Nat} {a : α}
    (h : l[i]? = some a) : a ∈ l := by
  obtain ⟨hlt, hEq⟩ := List.getElem?_eq_some_iff.mp h
  exact hEq ▸ List.getElem_mem hlt

theorem addChanges_some_getCol (r r' : Row) (va vb sa sb : PVal)
    (hva : getCol r "VIX_1_month_after" = some va)
    (hvb : getCol r "VIX_1_month_before" = some vb)
    (hsa : getCol r "SPY_1_month_after" = some sa)
    (hsb : getCol r "SPY_1_month_before" = some sb)
    (hAC : addChanges r = some r') :
    getCol r' "VIX_1m_change (%)" = some (pctFormula va vb) ∧
    getCol r' "SPY_1m_change (%)" = some (pctFormula sa sb) ∧
    ∀ c : String, c ≠ "VIX_1m_change (%)" → c ≠ "SPY_1m_change (%)" →
      getCol r' c = getCol r c := by
  rw [addChanges_eq r va vb sa sb hva hvb hsa hsb] at hAC
  simp only [Option.some.injEq] at hAC
  subst hAC
  refine ⟨?_, ?_, ?_⟩
  · rw [getCol_setCol_other _ _ _ _ (by decide), getCol_setCol_self]
  · rw [getCol_setCol_self]
  · intro c h1 h2
    rw [getCol_setCol_other _ _ _ _ h2, getCol_setCol_other _ _ _ _ h1]

/-- CLAIM C4.  For every row of a table accepted by
`calculate_percentage_changes`, each instrument's derived change column
equals (after - before) / before * 100 computed from that row's
"1 month after" and "1 month before" columns. -/
theorem C4_pct_change_formula (t t' : Table) (i : Nat) (y : Int) (r : Row)
    (a b c d : ℚ)
    (ht : calculate_percentage_changes t = some t')
    (hir : t[i]? = some (y, r))
    (hva : getCol r "VIX_1_month_after" = some (.num a))
    (hvb : getCol r "VIX_1_month_before" = some (.num b)) (hb : b ≠ 0)
    (hsa : getCol r "SPY_1_month_after" = some (.num c))
    (hsb : getCol r "SPY_1_month_before" = some (.num d)) (hd : d ≠ 0) :
    ∃ r', t'[i]? = some (y, r') ∧
      getCol r' "VIX_1m_change (%)" = some (.num ((a - b) / b * 100)) ∧
      getCol r' "SPY_1m_change (%)" = some (.num ((c - d) / d * 100)) := by
  obtain ⟨_, hidx⟩ := cpc_pairing t t' ht
  obtain ⟨r', hr', hAC⟩ := hidx i y r hir
  obtain ⟨hv, hs, _⟩ := addChanges_some_getCol r r' _ _ _ _ hva hvb hsa hsb hAC
  refine ⟨r', hr', ?_, ?_⟩
  · rw [hv, pctFormula_num a b hb]
  · rw [hs, pctFormula_num c d hd]

/-- Witness for C4: before = 100 and after = 110 give a derived change of
exactly 10 percent for both instruments. -/
theorem C4_witness :
    ∃ t', calculate_percentage_changes sampleTable = some t' ∧
      ∃ r', t'[0]? = some (2000, r') ∧
        getCol r' "VIX_1m_change (%)" = some (.num 10) ∧
        getCol r' "SPY_1m_change (%)" = some (.num 10) := by
  obtain ⟨t', ht'⟩ : ∃ u, calculate_percentage_changes sampleTable = some u :=
    ⟨_, rfl⟩
  obtain ⟨r', hr', hv, hs⟩ := C4_pct_change_formula sampleTable t' 0 2000
    sampleRow 110 100 110 100 ht' rfl rfl rfl (by norm_num) rfl rfl (by norm_num)
  refine ⟨t', ht', r', hr', ?_, ?_⟩
  · rw [hv]; norm_num
  · rw [hs]; norm_num

/-- CLAIM C6.  On any table in which every row has the four 1-month
columns, `calculate_percentage_changes` succeeds (never raises), and a row
whose "before" value is NaN or zero gets an undefined / not-a-number value
(NaN or a signed infinity) in that instrument's change column, propagated
rather than raised. -/
theorem C6_changes_never_raise (t : Table)
    (h : ∀ p ∈ t, fourColsPresent p.2) :
    ∃ t', calculate_percentage_changes t = some t' ∧
      ∀ (i : Nat) (y : Int) (r : Row), t[i]? = some (y, r) →
        ∃ r', t'[i]? = some (y, r') ∧
          ((getCol r "VIX_1_month_before" = some .nan ∨
              getCol r "VIX_1_month_before" = some (.num 0)) →
            ∃ v, getCol r' "VIX_1m_change (%)" = some v ∧
              v.isIndeterminate = true) ∧
          ((getCol r "SPY_1_month_before" = some .nan ∨
              getCol r "SPY_1_month_before" = some (.num 0)) →
            ∃ v, getCol r' "SPY_1m_change (%)" = some v ∧
              v.isIndeterminate = true) := by
  obtain ⟨t', ht'⟩ := cpc_total t h
  obtain ⟨_, hidx⟩ := cpc_pairing t t' ht'
  refine ⟨t', ht', ?_⟩
  intro i y r hir
  obtain ⟨r', hr', hAC⟩ := hidx i y r hir
  obtain ⟨hva, hvb, hsa, hsb⟩ := h (y, r) (mem_of_getElem?_eq hir)
  obtain ⟨va, hva⟩ := Option.isSome_iff_exists.mp hva
  obtain ⟨vb, hvb⟩ := Option.isSome_iff_exists.mp hvb
  obtain ⟨sa, hsa⟩ := Option.isSome_iff_exists.mp hsa
  obtain ⟨sb, hsb⟩ := Option.isSome_iff_exists.mp hsb
  obtain ⟨hv, hs, _⟩ := addChanges_some_getCol r r' va vb sa sb hva hvb hsa hsb hAC
  refine ⟨r', hr', ?_, ?_⟩
  · intro hbad
    refine ⟨pctFormula va vb, hv, ?_⟩
    rcases hbad with hnan | hzero
    · rw [hvb] at hnan
      simp only [Option.some.injEq] at hnan
      rw [hnan]
      exact pctFormula_indet_nan va
    · rw [hvb] at hzero
      simp only [Option.some.injEq] at hzero
      rw [hzero]
      exact pctFormula_indet_zero va
  · intro hbad
    refine ⟨pctFormula sa sb, hs, ?_⟩
    rcases hbad with hnan | hzero
    · rw [hsb] at hnan
      simp only [Option.some.injEq] at hnan
      rw [hnan]
      exact pctFormula_indet_nan sa
    · rw [hsb] at hzero
      simp only [Option.some.injEq] at hzero
      rw [hzero]
      exact pctFormula_indet_zero sa

/-- Witness for C6 on a row with a NaN VIX denominator and a zero SPY
denominator. -/
theorem C6_witness :
    ∃ t', calculate_percentage_changes sampleTableBad = some t' ∧
      ∀ (i : Nat) (y : Int) (r : Row), sampleTableBad[i]? = some (y, r) →
        ∃ r', t'[i]? = some (y, r') ∧
          ((getCol r "VIX_1_month_before" = some .nan ∨
              getCol r "VIX_1_month_before" = some (.num 0)) →
            ∃ v, getCol r' "VIX_1m_change (%)" = some v ∧
              v.isIndeterminate = true) ∧
          ((getCol r "SPY_1_month_before" = some .nan ∨
              getCol r "SPY_1_month_before" = some (.num 0)) →
            ∃ v, getCol r' "SPY_1m_change (%)" = some v ∧
              v.isIndeterminate = true) :=
  C6_changes_never_raise sampleTableBad (by decide)

/-- CLAIM C10.  `calculate_percentage_changes` only adds the two change
columns: on any table whose rows all have the four 1-month columns it
succeeds, keeps the same rows in the same order under the same Year keys,
and leaves the value of every column other than the two change columns
unchanged in every row. -/
theorem C10_changes_frame (t : Table)
    (h : ∀ p ∈ t, fourColsPresent p.2) :
    ∃ t', calculate_percentage_changes t = some t' ∧
      t'.length = t.length ∧
      ∀ (i : Nat) (y : Int) (r : Row), t[i]? = some (y, r) →
        ∃ r', t'[i]? = some (y, r') ∧
          ∀ c : String, c ≠ "VIX_1m_change (%)" → c ≠ "SPY_1m_change (%)" →
            getCol r' c = getCol r c := by
  obtain ⟨t', ht'⟩ := cpc_total t h
  obtain ⟨hlen, hidx⟩ := cpc_pairing t t' ht'
  refine ⟨t', ht', hlen, ?_⟩
  intro i y r hir
  obtain ⟨r', hr', hAC⟩ := hidx i y r hir
  obtain ⟨hva, hvb, hsa, hsb⟩ := h (y, r) (mem_of_getElem?_eq hir)
  obtain ⟨va, hva⟩ := Option.isSome_iff_exists.mp hva
  obtain ⟨vb, hvb⟩ := Option.isSome_iff_exists.mp hvb
  obtain ⟨sa, hsa⟩ := Option.isSome_iff_exists.mp hsa
  obtain ⟨sb, hsb⟩ := Option.isSome_iff_exists.mp hsb
  obtain ⟨_, _, hframe⟩ := addChanges_some_getCol r r' va vb sa sb hva hvb hsa hsb hAC
  exact ⟨r', hr', hframe⟩

/-- Witness for C10 on the concrete one-row sample table. -/
theorem C10_witness :
    ∃ t', calculate_percentage_changes sampleTable = some t' ∧
      t'.length = sampleTable.length ∧
      ∀ (i : Nat) (y : Int) (r : Row), sampleTable[i]? = some (y, r) →
        ∃ r', t'[i]? = some (y, r') ∧
          ∀ c : String, c ≠ "VIX_1m_change (%)" → c ≠ "SPY_1m_change (%)" →
            getCol r' c = getCol r c :=
  C10_changes_frame sampleTable (by decide)

/-- The per-year record, written out: eight cells, each the independent
per-cell computation on its own relative date and series. -/
theorem processYear_eq (d : Date) (vix spy : Series) :
    processYear d vix spy =
      [("VIX_2_months_before", computeCell (d.addMonths (-2)) vix),
       ("SPY_2_months_before", computeCell (d.addMonths (-2)) spy),
       ("VIX_1_month_before", computeCell (d.addMonths (-1)) vix),
       ("SPY_1_month_before", computeCell (d.addMonths (-1)) spy),
       ("VIX_1_month_after", computeCell (d.addMonths 1) vix),
       ("SPY_1_month_after", computeCell (d.addMonths 1) spy),
       ("VIX_2_months_after", computeCell (d.addMonths 2) vix),
       ("SPY_2_months_after", computeCell (d.addMonths 2) spy)] := rfl

theorem getCol_processYear_VIX (d : Date) (vix spy : Series)
    (p : String) (m : Int) (hpm : (p, m) ∈ RELATIVE_PERIODS) :
    getCol (processYear d vix spy) ("VIX_" ++ p) =
      some (computeCell (d.addMonths m) vix) := by
  simp only [RELATIVE_PERIODS, List.mem_cons, List.not_mem_nil, or_false,
    Prod.mk.injEq] at hpm
  rcases hpm with ⟨hp, hm⟩ | ⟨hp, hm⟩ | ⟨hp, hm⟩ | ⟨hp, hm⟩ <;>
    subst hp <;> subst hm <;> rfl

theorem getCol_processYear_SPY (d : Date) (vix spy : Series)
    (p : String) (m : Int) (hpm : (p, m) ∈ RELATIVE_PERIODS) :
    getCol (processYear d vix spy) ("SPY_" ++ p) =
      some (computeCell (d.addMonths m) spy) := by
  simp only [RELATIVE_PERIODS, List.mem_cons, List.not_mem_nil, or_false,
    Prod.mk.injEq] at hpm
  rcases hpm with ⟨hp, hm⟩ | ⟨hp, hm⟩ | ⟨hp, hm⟩ | ⟨hp, hm⟩ <;>
    subst hp <;> subst hm <;> rfl

/-- A resolver failure makes the cell NaN (the caught ValueError). -/
theorem computeCell_of_error (rel : Date) (data : Series)
    (h : get_closest_trading_day rel data = .error noTradingDayMsg) :
    computeCell rel data = .nan := by
  unfold computeCell
  rw [h]

/-- On an empty series every cell is NaN. -/
theorem computeCell_empty (rel : Date) : computeCell rel [] = .nan := rfl

/-- When the target date precedes the whole series, the cell is NaN. -/
theorem computeCell_of_all_late (rel : Date) (data : Series)
    (h : ∀ q ∈ data, rel.key < q.1.key) : computeCell rel data = .nan := by
  apply computeCell_of_error
  have hfil : data.filter (fun p => decide (p.1.key ≤ rel.key)) = [] := by
    refine List.filter_eq_nil_iff.mpr ?_
    intro q hq
    simpa using not_le_of_lt (h q hq)
  unfold get_closest_trading_day
  rw [hfil]
  rfl

/-- CLAIM C2.  Each (year, offset, instrument) cell of the Movement
Calculator's table is the independent per-cell computation on its own
relative date and series alone, so a resolver or price failure in one cell
sets only that cell to NaN (last two conjuncts) and leaves every other
cell exactly as computed from its own inputs (first three conjuncts);
no failure aborts the computation. -/
theorem C2_cell_isolation (vix_data spy_data : Series)
    (election_dates : List (Int × Date)) (y : Int) (d : Date)
    (p : String) (m : Int)
    (hyd : (y, d) ∈ election_dates)
    (hpm : (p, m) ∈ RELATIVE_PERIODS) :
    (y, processYear d vix_data spy_data) ∈
      calculate_price_movements election_dates RELATIVE_PERIODS vix_data spy_data ∧
    getCol (processYear d vix_data spy_data) ("VIX_" ++ p) =
      some (computeCell (d.addMonths m) vix_data) ∧
    getCol (processYear d vix_data spy_data) ("SPY_" ++ p) =
      some (computeCell (d.addMonths m) spy_data) ∧
    (get_closest_trading_day (d.addMonths m) vix_data = .error noTradingDayMsg →
      getCol (processYear d vix_data spy_data) ("VIX_" ++ p) = some .nan) ∧
    (get_closest_trading_day (d.addMonths m) spy_data = .error noTradingDayMsg →
      getCol (processYear d vix_data spy_data) ("SPY_" ++ p) = some .nan) := by
  refine ⟨List.mem_map_of_mem _ hyd,
    getCol_processYear_VIX d vix_data spy_data p m hpm,
    getCol_processYear_SPY d vix_data spy_data p m hpm, ?_, ?_⟩
  · intro h
    rw [getCol_processYear_VIX d vix_data spy_data p m hpm,
      computeCell_of_error _ _ h]
  · intro h
    rw [getCol_processYear_SPY d vix_data spy_data p m hpm,
      computeCell_of_error _ _ h]

/-- Witness for C2 at the 2000 election year and the "1_month_after"
offset, on a concrete series. -/
theorem C2_witness :
    (2000, processYear ⟨2000, 11, 7⟩ sampleLateSeries sampleLateSeries) ∈
      calculate_price_movements ELECTION_DATES RELATIVE_PERIODS
        sampleLateSeries sampleLateSeries ∧
    getCol (processYear ⟨2000, 11, 7⟩ sampleLateSeries sampleLateSeries)
        ("VIX_" ++ "1_month_after") =
      some (computeCell (Date.addMonths ⟨2000, 11, 7⟩ 1) sampleLateSeries) ∧
    getCol (processYear ⟨2000, 11, 7⟩ sampleLateSeries sampleLateSeries)
        ("SPY_" ++ "1_month_after") =
      some (computeCell (Date.addMonths ⟨2000, 11, 7⟩ 1) sampleLateSeries) ∧
    (get_closest_trading_day (Date.addMonths ⟨2000, 11, 7⟩ 1) sampleLateSeries =
        .error noTradingDayMsg →
      getCol (processYear ⟨2000, 11, 7⟩ sampleLateSeries sampleLateSeries)
        ("VIX_" ++ "1_month_after") = some .nan) ∧
    (get_closest_trading_day (Date.addMonths ⟨2000, 11, 7⟩ 1) sampleLateSeries =
        .error noTradingDayMsg →
      getCol (processYear ⟨2000, 11, 7⟩ sampleLateSeries sampleLateSeries)
        ("SPY_" ++ "1_month_after") = some .nan) :=
  C2_cell_isolation sampleLateSeries sampleLateSeries ELECTION_DATES 2000
    ⟨2000, 11, 7⟩ "1_month_after" 1 (by decide) (by decide)

/-- CLAIM C9.  The Movement Calculator is total over its series inputs:
on any election-date list it yields one record per year without failing,
and with an empty VIX series every VIX cell is NaN while each SPY cell is
computed from the SPY series exactly as usual. -/
theorem C9_movements_total (spy_data : Series)
    (election_dates : List (Int × Date)) (y : Int) (d : Date)
    (p : String) (m : Int)
    (hyd : (y, d) ∈ election_dates)
    (hpm : (p, m) ∈ RELATIVE_PERIODS) :
    (calculate_price_movements election_dates RELATIVE_PERIODS [] spy_data).length =
      election_dates.length ∧
    (y, processYear d [] spy_data) ∈
      calculate_price_movements election_dates RELATIVE_PERIODS [] spy_data ∧
    getCol (processYear d [] spy_data) ("VIX_" ++ p) = some .nan ∧
    getCol (processYear d [] spy_data) ("SPY_" ++ p) =
      some (computeCell (d.addMonths m) spy_data) := by
  refine ⟨List.length_map _ _, List.mem_map_of_mem _ hyd, ?_,
    getCol_processYear_SPY d [] spy_data p m hpm⟩
  rw [getCol_processYear_VIX d [] spy_data p m hpm, computeCell_empty]

/-- Witness for C9 at the 2000 election year and the "1_month_after"
offset, with an empty VIX series and a concrete SPY series. -/
theorem C9_witness :
    (calculate_price_movements ELECTION_DATES RELATIVE_PERIODS []
        sampleLateSeries).length = ELECTION_DATES.length ∧
    (2000, processYear ⟨2000, 11, 7⟩ [] sampleLateSeries) ∈
      calculate_price_movements ELECTION_DATES RELATIVE_PERIODS []
        sampleLateSeries ∧
    getCol (processYear ⟨2000, 11, 7⟩ [] sampleLateSeries)
      ("VIX_" ++ "1_month_after") = some .nan ∧
    getCol (processYear ⟨2000, 11, 7⟩ [] sampleLateSeries)
        ("SPY_" ++ "1_month_after") =
      some (computeCell (Date.addMonths ⟨2000, 11, 7⟩ 1) sampleLateSeries) :=
  C9_movements_total sampleLateSeries ELECTION_DATES 2000 ⟨2000, 11, 7⟩
    "1_month_after" 1 (by decide) (by decide)

/-- CLAIM C8.  Calendar-month addition with day clamping, as used by the
Date Arithmetic component, is not invertible: for an anchor on the 31st
and the program's own "+1 month" offset, adding and then subtracting the
offset does not return the anchor. -/
theorem C8_addMonths_not_invertible :
    ∃ (d : Date), ∃ pm ∈ RELATIVE_PERIODS,
      (d.addMonths pm.2).addMonths (-pm.2) ≠ d :=
  ⟨⟨2000, 1, 31⟩, ("1_month_after", 1), by decide, by decide⟩

/-- Every record produced by `processYear` carries the four 1-month
columns. -/
theorem fourColsPresent_processYear (d : Date) (vix spy : Series) :
    fourColsPresent (processYear d vix spy) := ⟨rfl, rfl, rfl, rfl⟩

/-- Every row of a Movement table is `processYear` of its year's date. -/
theorem mem_cpm (vix spy : Series) (eds : List (Int × Date))
    (q : Int × Row)
    (hq : q ∈ calculate_price_movements eds RELATIVE_PERIODS vix spy) :
    ∃ yd ∈ eds, q = (yd.1, processYear yd.2 vix spy) := by
  obtain ⟨yd, hyd, hEq⟩ := List.mem_map.mp hq
  exact ⟨yd, hyd, hEq.symm⟩

/-- Every row of a Movement table has the four 1-month columns. -/
theorem cpm_fourCols (vix spy : Series) (eds : List (Int × Date)) :
    ∀ q ∈ calculate_price_movements eds RELATIVE_PERIODS vix spy,
      fourColsPresent q.2 := by
  intro q hq
  obtain ⟨yd, _, hEq⟩ := mem_cpm vix spy eds q hq
  rw [hEq]
  exact fourColsPresent_processYear yd.2 vix spy

/-- `calculate_percentage_changes` preserves the Year column sequence. -/
theorem cpc_map_fst (t t' : Table)
    (h : calculate_percentage_changes t = some t') :
    t'.map Prod.fst = t.map Prod.fst := by
  obtain ⟨hlen, hidx⟩ := cpc_pairing t t' h
  refine List.ext_getElem? ?_
  intro i
  rw [List.getElem?_map, List.getElem?_map]
  cases hti : t[i]? with
  | none =>
    have hlt : t.length ≤ i := by
      by_contra hcon
      push_neg at hcon
      rw [List.getElem?_eq_getElem hcon] at hti
      simp at hti
    have : t'[i]? = none := List.getElem?_eq_none (hlen ▸ hlt)
    rw [this]
  | some q =>
    obtain ⟨y, r⟩ := q
    obtain ⟨r', hr', _⟩ := hidx i y r hti
    rw [hr']
    rfl

/-- CLAIM C3.  An empty fetch for either instrument halts the run before
any output is produced; when both series are non-empty the pipeline
proceeds and writes both CSV tables. -/
theorem C3_empty_fetch_halts (vix_data spy_data : Series) :
    ((vix_data.isEmpty || spy_data.isEmpty) = true →
      main_pipeline vix_data spy_data = .halted) ∧
    ((vix_data.isEmpty || spy_data.isEmpty) = false →
      ∃ t2, main_pipeline vix_data spy_data =
        .completed (calculate_price_movements ELECTION_DATES RELATIVE_PERIODS
          vix_data spy_data) t2) := by
  constructor
  · intro h
    unfold main_pipeline
    rw [if_pos h]
  · intro h
    obtain ⟨t2, ht2⟩ := cpc_total
      (calculate_price_movements ELECTION_DATES RELATIVE_PERIODS vix_data spy_data)
      (cpm_fourCols vix_data spy_data ELECTION_DATES)
    refine ⟨t2, ?_⟩
    unfold main_pipeline
    rw [if_neg (by rw [h]; exact Bool.false_ne_true)]
    simp only [ht2]

/-- Witness for C3: the empty VIX fetch halts; two non-empty one-day
series complete. -/
theorem C3_witness :
    main_pipeline [] sampleLateSeries = .halted ∧
    ∃ t2, main_pipeline sampleLateSeries sampleLateSeries =
      .completed (calculate_price_movements ELECTION_DATES RELATIVE_PERIODS
        sampleLateSeries sampleLateSeries) t2 :=
  ⟨(C3_empty_fetch_halts [] sampleLateSeries).1 (by decide),
   (C3_empty_fetch_halts sampleLateSeries sampleLateSeries).2 (by decide)⟩

/-- A column read succeeds whenever the name occurs among the keys. -/
theorem getCol_isSome_of_mem_keys (r : Row) (c : String)
    (h : c ∈ r.map Prod.fst) : (getCol r c).isSome = true := by
  induction r with
  | nil => simp at h
  | cons p r ih =>
    by_cases hp : p.1 = c
    · simp [getCol, List.find?_cons, hp]
    · have hc : c ∈ r.map Prod.fst := by
        rcases List.mem_cons.mp h with h1 | h2
        · exact absurd h1.symm hp
        · exact h2
      simpa [getCol, List.find?_cons, hp] using ih hc

/-- A name absent from the keys never matches an entry. -/
theorem any_eq_false_of_not_mem_keys (r : Row) (c : String)
    (h : c ∉ r.map Prod.fst) :
    r.any (fun p => decide (p.1 = c)) = false := by
  refine List.any_eq_false.mpr ?_
  intro x hx hdec
  have hxc : x.1 = c := of_decide_eq_true hdec
  exact h (hxc ▸ List.mem_map_of_mem Prod.fst hx)

/-- Assigning a fresh column appends its name to the key sequence. -/
theorem setCol_keys_append (r : Row) (c : String) (v : PVal)
    (h : c ∉ r.map Prod.fst) :
    (setCol r c v).map Prod.fst = r.map Prod.fst ++ [c] := by
  unfold setCol
  rw [if_neg (by rw [any_eq_false_of_not_mem_keys r c h]; exact Bool.false_ne_true)]
  simp

/-- On a record whose keys are exactly the eight price columns, the change
pass appends exactly the two change column names. -/
theorem addChanges_keys (r r' : Row)
    (hkeys : r.map Prod.fst = priceColumns)
    (hAC : addChanges r = some r') :
    r'.map Prod.fst =
      priceColumns ++ ["VIX_1m_change (%)", "SPY_1m_change (%)"] := by
  have hva := getCol_isSome_of_mem_keys r "VIX_1_month_after" (by rw [hkeys]; decide)
  have hvb := getCol_isSome_of_mem_keys r "VIX_1_month_before" (by rw [hkeys]; decide)
  have hsa := getCol_isSome_of_mem_keys r "SPY_1_month_after" (by rw [hkeys]; decide)
  have hsb := getCol_isSome_of_mem_keys r "SPY_1_month_before" (by rw [hkeys]; decide)
  obtain ⟨va, hva⟩ := Option.isSome_iff_exists.mp hva
  obtain ⟨vb, hvb⟩ := Option.isSome_iff_exists.mp hvb
  obtain ⟨sa, hsa⟩ := Option.isSome_iff_exists.mp hsa
  obtain ⟨sb, hsb⟩ := Option.isSome_iff_exists.mp hsb
  rw [addChanges_eq r va vb sa sb hva hvb hsa hsb] at hAC
  simp only [Option.some.injEq] at hAC
  subst hAC
  have hk1 : (setCol r "VIX_1m_change (%)" (pctFormula va vb)).map Prod.fst =
      priceColumns ++ ["VIX_1m_change (%)"] := by
    rw [setCol_keys_append r _ _ (by rw [hkeys]; decide), hkeys]
  rw [setCol_keys_append _ _ _ (by rw [hk1]; decide), hk1]
  simp

/-- CLAIM C5.  The Result Table has exactly one row per election year (the
six fixed years, in order); every row carries exactly the eight
(instrument, offset) columns; and after the change pass every row carries
exactly those eight plus the two derived change columns. -/
theorem C5_table_shape (vix_data spy_data : Series) :
    (calculate_price_movements ELECTION_DATES RELATIVE_PERIODS vix_data
        spy_data).map Prod.fst = [2000, 2004, 2008, 2012, 2016, 2020] ∧
    (∀ q ∈ calculate_price_movements ELECTION_DATES RELATIVE_PERIODS vix_data
        spy_data, q.2.map Prod.fst = priceColumns) ∧
    ∃ t', calculate_percentage_changes (calculate_price_movements
        ELECTION_DATES RELATIVE_PERIODS vix_data spy_data) = some t' ∧
      t'.map Prod.fst = [2000, 2004, 2008, 2012, 2016, 2020] ∧
      ∀ q ∈ t', q.2.map Prod.fst =
        priceColumns ++ ["VIX_1m_change (%)", "SPY_1m_change (%)"] := by
  have h2 : ∀ q ∈ calculate_price_movements ELECTION_DATES RELATIVE_PERIODS
      vix_data spy_data, q.2.map Prod.fst = priceColumns := by
    intro q hq
    obtain ⟨yd, _, hEq⟩ := mem_cpm vix_data spy_data ELECTION_DATES q hq
    rw [hEq]
    rfl
  obtain ⟨t', ht'⟩ := cpc_total _ (cpm_fourCols vix_data spy_data ELECTION_DATES)
  obtain ⟨hlen, hidx⟩ := cpc_pairing _ t' ht'
  refine ⟨rfl, h2, t', ht', ?_, ?_⟩
  · rw [cpc_map_fst _ t' ht']
    rfl
  · intro q hq
    obtain ⟨i, hi⟩ := List.getElem?_of_mem hq
    have hlt : i < (calculate_price_movements ELECTION_DATES RELATIVE_PERIODS
        vix_data spy_data).length := by
      have hlt' : i < t'.length := (List.getElem?_eq_some_iff.mp hi).1
      rw [← hlen]
      exact hlt'
    have hti : (calculate_price_movements ELECTION_DATES RELATIVE_PERIODS
        vix_data spy_data)[i]? = some ((calculate_price_movements ELECTION_DATES
        RELATIVE_PERIODS vix_data spy_data)[i]) := List.getElem?_eq_getElem hlt
    obtain ⟨r', hr', hAC⟩ := hidx i
      ((calculate_price_movements ELECTION_DATES RELATIVE_PERIODS vix_data
        spy_data)[i]).1
      ((calculate_price_movements ELECTION_DATES RELATIVE_PERIODS vix_data
        spy_data)[i]).2 hti
    have hq' : q = (((calculate_price_movements ELECTION_DATES RELATIVE_PERIODS
        vix_data spy_data)[i]).1, r') := by
      rw [hi] at hr'
      exact Option.some.inj hr'
    have hk := h2 _ (List.getElem_mem hlt)
    rw [hq']
    exact addChanges_keys _ r' hk hAC

/-- Witness for C5 on two concrete one-day series. -/
theorem C5_witness :
    (calculate_price_movements ELECTION_DATES RELATIVE_PERIODS sampleLateSeries
        sampleLateSeries).map Prod.fst = [2000, 2004, 2008, 2012, 2016, 2020] ∧
    (∀ q ∈ calculate_price_movements ELECTION_DATES RELATIVE_PERIODS
        sampleLateSeries sampleLateSeries, q.2.map Prod.fst = priceColumns) ∧
    ∃ t', calculate_percentage_changes (calculate_price_movements
        ELECTION_DATES RELATIVE_PERIODS sampleLateSeries sampleLateSeries) =
          some t' ∧
      t'.map Prod.fst = [2000, 2004, 2008, 2012, 2016, 2020] ∧
      ∀ q ∈ t', q.2.map Prod.fst =
        priceColumns ++ ["VIX_1m_change (%)", "SPY_1m_change (%)"] :=
  C5_table_shape sampleLateSeries sampleLateSeries

/-- CLAIM C7.  The dataset-level empty check looks only at the raw fetched
series: with both series non-empty but every target date preceding every
series date, the run still completes (writes both tables) and every price
cell of the first table is NaN. -/
theorem C7_empty_check_only_raw (vix_data spy_data : Series)
    (hv : vix_data.isEmpty = false) (hs : spy_data.isEmpty = false)
    (hvlate : ∀ q ∈ vix_data, ∀ yd ∈ ELECTION_DATES, ∀ pm ∈ RELATIVE_PERIODS,
      (Date.addMonths yd.2 pm.2).key < q.1.key)
    (hslate : ∀ q ∈ spy_data, ∀ yd ∈ ELECTION_DATES, ∀ pm ∈ RELATIVE_PERIODS,
      (Date.addMonths yd.2 pm.2).key < q.1.key) :
    ∃ t2, main_pipeline vix_data spy_data =
        .completed (calculate_price_movements ELECTION_DATES RELATIVE_PERIODS
          vix_data spy_data) t2 ∧
      ∀ row ∈ calculate_price_movements ELECTION_DATES RELATIVE_PERIODS
          vix_data spy_data, ∀ cell ∈ row.2, cell.2 = PVal.nan := by
  obtain ⟨t2, ht2⟩ := cpc_total _ (cpm_fourCols vix_data spy_data ELECTION_DATES)
  refine ⟨t2, ?_, ?_⟩
  · unfold main_pipeline
    rw [if_neg (by rw [hv, hs]; exact Bool.false_ne_true)]
    simp only [ht2]
  · intro row hrow cell hcell
    obtain ⟨yd, hyd, hEq⟩ := mem_cpm vix_data spy_data ELECTION_DATES row hrow
    rw [hEq, processYear_eq] at hcell
    simp only [List.mem_cons, List.not_mem_nil, or_false] at hcell
    rcases hcell with h | h | h | h | h | h | h | h <;> rw [h] <;>
      [ exact computeCell_of_all_late _ _
          (fun q hq => hvlate q hq yd hyd ("2_months_before", -2) (by decide));
        exact computeCell_of_all_late _ _
          (fun q hq => hslate q hq yd hyd ("2_months_before", -2) (by decide));
        exact computeCell_of_all_late _ _
          (fun q hq => hvlate q hq yd hyd ("1_month_before", -1) (by decide));
        exact computeCell_of_all_late _ _
          (fun q hq => hslate q hq yd hyd ("1_month_before", -1) (by decide));
        exact computeCell_of_all_late _ _
          (fun q hq => hvlate q hq yd hyd ("1_month_after", 1) (by decide));
        exact computeCell_of_all_late _ _
          (fun q hq => hslate q hq yd hyd ("1_month_after", 1) (by decide));
        exact computeCell_of_all_late _ _
          (fun q hq => hvlate q hq yd hyd ("2_months_after", 2) (by decide));
        exact computeCell_of_all_late _ _
          (fun q hq => hslate q hq yd hyd ("2_months_after", 2) (by decide))]

/-- Witness for C7: two non-empty one-day 2022 series, all election
windows unresolvable, run completes with an all-NaN table. -/
theorem C7_witness :
    ∃ t2, main_pipeline sampleLateSeries sampleLateSeries =
        .completed (calculate_price_movements ELECTION_DATES RELATIVE_PERIODS
          sampleLateSeries sampleLateSeries) t2 ∧
      ∀ row ∈ calculate_price_movements ELECTION_DATES RELATIVE_PERIODS
          sampleLateSeries sampleLateSeries, ∀ cell ∈ row.2, cell.2 = PVal.nan :=
  C7_empty_check_only_raw sampleLateSeries sampleLateSeries rfl rfl
    (by decide) (by decide)

end ElectionData
